import Mathlib

/-!
Verification of the rw-by-checker extraction-and-filtering pipeline
(src/main.py) against its natural-language specification.

Python strings are modelled as lists of characters (`Str`), Python `float`
values as exact rationals (`ℚ`, built with `mkRat` so that all values are
kernel-computable).  The parsed HTML document is modelled by the result of
the CSS selections the code performs: a row element carries its data
attributes (`Option Str`, `None` when the attribute is absent), the text of
each required sub-element (`Option Str`, `none` when `select_one` finds no
element), and the list of ticket-class sub-elements.  Fallible code returns
`Except PyErr` / `Option`.
-/

/-- Model of a Python `str`: a list of characters. -/
abbrev Str := List Char

/-- Coerce a Lean string literal to the `Str` model. -/
def str (s : String) : Str := s.toList

/-- Numeric value of a list of decimal digit characters (most significant
first), as produced by Python numeric parsing of a digit run. -/
def digitsVal (l : List Char) : ℕ :=
  l.foldl (fun a c => 10 * a + (c.toNat - 48)) 0

/-- Model of Python `str.strip()`: remove leading and trailing whitespace. -/
def pyStrip (l : Str) : Str :=
  ((l.dropWhile Char.isWhitespace).reverse.dropWhile Char.isWhitespace).reverse

/-- Model of Python `str.replace(a, b)` for single-character patterns
(the code only ever replaces one character by another). -/
def replaceChar (a b : Char) (l : Str) : Str :=
  l.map (fun c => if c = a then b else c)

/-- Model of Python `float(s)` restricted to plain decimal literals
(optional sign, integer digits, optional point and fraction digits), the
shape of the price tokens this program feeds it.  The result is the exact
rational value of the literal; exponents, underscores, `inf`/`nan` are out
of the modelled domain and all other inputs fail, as `float` raises
`ValueError` on them.  Helper: unsigned part. -/
def py_float_core (l : List Char) : Option ℚ :=
  let ip := l.takeWhile Char.isDigit
  let rest := l.dropWhile Char.isDigit
  match rest with
  | [] => if ip.isEmpty then none else some (digitsVal ip)
  | c :: fp =>
    if c = '.' && fp.all Char.isDigit && (!ip.isEmpty || !fp.isEmpty) then
      some (mkRat (digitsVal ip * 10 ^ fp.length + digitsVal fp) (10 ^ fp.length))
    else none

/-- Model of Python `float(s)`: `float` ignores surrounding whitespace and
accepts one optional leading sign. -/
def py_float (s : Str) : Option ℚ :=
  match pyStrip s with
  | '-' :: rest => (py_float_core rest).map Neg.neg
  | '+' :: rest => py_float_core rest
  | l => py_float_core l

/-- src/main.py `parse_price_value` (lines 45-49): replace the decimal
comma by a point, then convert with `float`; `ValueError` is caught and
turned into `None`. -/
def parse_price_value (text : Str) : Option ℚ :=
  py_float (replaceChar ',' '.' text)

/-- One `.sch-table__t-item.has-quant` ticket-class sub-element of a row:
the text of its `.sch-table__t-name` and `a span` sub-elements (`none`
when `select_one` finds none), and the texts of all `.ticket-cost` and
`.ticket-currency` elements it contains. -/
structure TicketElem where
  name_el : Option Str
  qty_el : Option Str
  cost_texts : List Str
  currency_texts : List Str
deriving DecidableEq

/-- One `.sch-table__row` element: its data attributes (absent attributes
are `none`, as `row.get` returns `None`), the text of each required
sub-element (`none` when `select_one` finds no element), and its
ticket-class sub-elements in document order. -/
structure RowElem where
  train_type : Option Str
  selling : Option Str
  number : Option Str
  dep_time_el : Option Str
  arr_time_el : Option Str
  dep_station_el : Option Str
  arr_station_el : Option Str
  ticket_items : List TicketElem
deriving DecidableEq

/-- The ticket dictionary built at src/main.py lines 89-94. -/
structure TicketOffer where
  type : Str
  seats : Str
  price : Str
  min_price : Option ℚ
deriving DecidableEq

/-- The train dictionary built at src/main.py lines 97-106. -/
structure Train where
  number : Option Str
  train_type : Option Str
  selling : Option Str
  dep_time : Str
  arr_time : Str
  departure : Str
  arrival : Str
  tickets : List TicketOffer
deriving DecidableEq

/-- The uncaught Python exception that aborts a run. -/
inductive PyErr where
  | attributeError (msg : Str)
deriving DecidableEq

/-- Decidable equality of `Except` results, for evaluating the model on
concrete inputs. -/
instance {ε α : Type} [DecidableEq ε] [DecidableEq α] :
    DecidableEq (Except ε α) := fun a b =>
  match a, b with
  | .error e, .error f =>
    if h : e = f then isTrue (congrArg Except.error h)
    else isFalse (fun hh => h (by injection hh))
  | .error _, .ok _ => isFalse (fun hh => Except.noConfusion hh)
  | .ok _, .error _ => isFalse (fun hh => Except.noConfusion hh)
  | .ok x, .ok y =>
    if h : x = y then isTrue (congrArg Except.ok h)
    else isFalse (fun hh => h (by injection hh))

/-- The message of the `AttributeError` Python raises when `.text` is read
on the `None` returned by a failed `select_one`. -/
def noneTextMsg : Str := str "'NoneType' object has no attribute 'text'"

/-- The error value produced by every failed required-sub-element access. -/
def attrErr : PyErr := .attributeError noneTextMsg

/-- Model of `element.text.strip()` where `element` came from `select_one`:
reading `.text` on `None` raises `AttributeError`. -/
def getText : Option Str → Except PyErr Str
  | none => .error attrErr
  | some s => .ok (pyStrip s)

/-- Lexicographic order on `Str` by code point, as Python compares
strings.  `strLe a b` models `a <= b`. -/
def strLe : Str → Str → Bool
  | [], _ => true
  | _ :: _, [] => false
  | a :: as, b :: bs => if a = b then strLe as bs else decide (a < b)

/-- Insert into a `strLe`-sorted list, keeping it sorted. -/
def insertStr (s : Str) : List Str → List Str
  | [] => [s]
  | x :: xs => if strLe s x then s :: x :: xs else x :: insertStr s xs

/-- Sort a list of strings ascending by `strLe` (insertion sort). -/
def sortStrs : List Str → List Str
  | [] => []
  | x :: xs => insertStr x (sortStrs xs)

/-- Model of Python `sorted(set(l))`: the distinct elements of `l` in
ascending lexicographic order. -/
def pySortedSet (l : List Str) : List Str := sortStrs l.eraseDups

/-- Model of Python `sep.join(parts)`. -/
def pyJoin (sep : Str) : List Str → Str
  | [] => []
  | [x] => x
  | x :: y :: rest => x ++ sep ++ pyJoin sep (y :: rest)

/-- Python `min` over a nonempty list: fold keeping the current minimum
(`if x < acc then x else acc`), returning the first minimal element. -/
def pyMin (x : ℚ) (xs : List ℚ) : ℚ :=
  xs.foldl (fun a y => if y < a then y else a) x

/-- src/main.py lines 72-94: build one ticket dictionary from a
ticket-class sub-element.  `t_name` falls back to the placeholder when the
stripped name is empty (Python `or`); `raw_costs` are the stripped
`.ticket-cost` texts; `min_price` is the minimum of the successfully
parsed prices or `None`; the display price joins the raw cost texts with
`/` and appends the deduplicated, sorted currency codes after a space, or
is the placeholder `—` when there are no cost tokens. -/
def parseTicket (te : TicketElem) : Except PyErr TicketOffer :=
  match getText te.name_el with
  | .error e => .error e
  | .ok nameRaw =>
    match getText te.qty_el with
    | .error e => .error e
    | .ok qty =>
      let t_name := if nameRaw.isEmpty then str "Неизвестный тип" else nameRaw
      let raw_costs := te.cost_texts.map pyStrip
      let price_values := raw_costs.filterMap parse_price_value
      let min_price : Option ℚ :=
        match price_values with
        | [] => none
        | p :: ps => some (pyMin p ps)
      let currencies := te.currency_texts.map pyStrip
      let price_str :=
        if raw_costs.isEmpty then str "—"
        else
          let joined := pyJoin (str "/") raw_costs
          if currencies.isEmpty then joined
          else joined ++ str " " ++ pyJoin (str "/") (pySortedSet currencies)
      .ok { type := t_name, seats := qty, price := price_str, min_price := min_price }

/-- The per-row ticket loop of src/main.py lines 70-94: build the ticket
list in document order; the first failing sub-element access aborts. -/
def parseTickets : List TicketElem → Except PyErr (List TicketOffer)
  | [] => .ok []
  | te :: rest =>
    match parseTicket te with
    | .error e => .error e
    | .ok off =>
      match parseTickets rest with
      | .error e => .error e
      | .ok offs => .ok (off :: offs)

/-- src/main.py lines 64-106: build one train dictionary from a row that
passed the early filters. -/
def parseRow (row : RowElem) : Except PyErr Train :=
  match getText row.dep_time_el with
  | .error e => .error e
  | .ok dep_time =>
    match getText row.arr_time_el with
    | .error e => .error e
    | .ok arr_time =>
      match getText row.dep_station_el with
      | .error e => .error e
      | .ok dep_station =>
        match getText row.arr_station_el with
        | .error e => .error e
        | .ok arr_station =>
          match parseTickets row.ticket_items with
          | .error e => .error e
          | .ok tickets =>
            .ok { number := row.number, train_type := row.train_type,
                  selling := row.selling, dep_time := dep_time, arr_time := arr_time,
                  departure := dep_time ++ str " " ++ dep_station,
                  arrival := arr_time ++ str " " ++ arr_station, tickets := tickets }

/-- Python `train_type not in filter_types` membership test: `None` is
never a member of a set of strings. -/
def optMem (ty : Option Str) (l : List Str) : Bool :=
  match ty with
  | none => false
  | some s => decide (s ∈ l)

/-- The type-filter guard of src/main.py line 59:
`if filter_types and train_type not in filter_types: continue`.
Python truthiness: `None` and the empty set are both falsy, so the row is
rejected only when the filter is a nonempty set not containing the type. -/
def typeRejected (filter_types : Option (List Str)) (ty : Option Str) : Bool :=
  match filter_types with
  | none => false
  | some l => !l.isEmpty && !optMem ty l

/-- The selling-filter guard of src/main.py line 61:
`if filter_selling is not None and selling != filter_selling: continue`. -/
def sellingRejected (filter_selling : Option Str) (s : Option Str) : Bool :=
  match filter_selling with
  | none => false
  | some f => decide (s ≠ some f)

/-- A row is skipped by the early filters of src/main.py lines 59-62. -/
def rowRejected (filter_types : Option (List Str)) (filter_selling : Option Str)
    (row : RowElem) : Bool :=
  typeRejected filter_types row.train_type || sellingRejected filter_selling row.selling

/-- src/main.py `parse_trains` (lines 52-107): walk the rows in document
order, skip rows rejected by the early type/selling filters, build a train
dictionary per remaining row; the first failing sub-element access aborts
the whole call with the raised exception. -/
def parse_trains (doc : List RowElem) (filter_types : Option (List Str))
    (filter_selling : Option Str) : Except PyErr (List Train) :=
  match doc with
  | [] => .ok []
  | row :: rest =>
    if rowRejected filter_types filter_selling row then
      parse_trains rest filter_types filter_selling
    else
      match parseRow row with
      | .error e => .error e
      | .ok t =>
        match parse_trains rest filter_types filter_selling with
        | .error e => .error e
        | .ok ts => .ok (t :: ts)

/-- The `in_range` predicate of src/main.py lines 113-122: an absent price
never matches; otherwise cheap means `price < 10`, normal means
`10 <= price <= 20`, expensive means `price > 20`, and any other
(unreachable via argparse) bracket string keeps everything. -/
def in_range (price_range : Str) (price : Option ℚ) : Bool :=
  match price with
  | none => false
  | some p =>
    if price_range = str "cheap" then decide (p < 10)
    else if price_range = str "normal" then decide (10 ≤ p) && decide (p ≤ 20)
    else if price_range = str "expensive" then decide (20 < p)
    else true

/-- src/main.py `filter_by_price_range` (lines 109-133): falsy
`price_range` (Python `None` or the empty string) disables the filter;
otherwise keep a train iff some ticket's `min_price` is in range. -/
def filter_by_price_range (trains : List Train) (price_range : Option Str) :
    List Train :=
  match price_range with
  | none => trains
  | some s =>
    if s.isEmpty then trains
    else trains.filter (fun t => t.tickets.any (fun tk => in_range s tk.min_price))

/-- Model of Python `datetime.strptime(s, "%H:%M")`: one or two digits for
the hour (0-23), a colon, one or two digits for the minute (0-59), nothing
else; any other shape raises `ValueError` (modelled as `none`). -/
def parseHHMM (s : Str) : Option (ℕ × ℕ) :=
  let hs := s.takeWhile Char.isDigit
  let rest := s.dropWhile Char.isDigit
  match rest with
  | ':' :: rest2 =>
    let ms := rest2.takeWhile Char.isDigit
    let rest3 := rest2.dropWhile Char.isDigit
    if rest3.isEmpty && decide (1 ≤ hs.length) && decide (hs.length ≤ 2)
        && decide (1 ≤ ms.length) && decide (ms.length ≤ 2) then
      let h := digitsVal hs
      let m := digitsVal ms
      if h < 24 && m < 60 then some (h, m) else none
    else none
  | _ => none

/-- src/main.py `time_to_category` (lines 153-164): parse the departure
time as `HH:MM` and bucket by hour; a parse failure raises (`none`). -/
def time_to_category (dep_time : Str) : Option Str :=
  match parseHHMM dep_time with
  | none => none
  | some (h, _) =>
    some (if h < 6 then str "Ночь"
          else if h < 12 then str "Утро"
          else if h < 18 then str "День"
          else str "Вечер")

/-- The categorization loop of src/main.py lines 168-170: pair each train
with its time category, aborting on the first unparseable departure time
(the raised `ValueError` escapes before anything is printed). -/
def categorizeTrains : List Train → Option (List (Train × Str))
  | [] => some []
  | t :: rest =>
    match time_to_category t.dep_time with
    | none => none
    | some c => (categorizeTrains rest).map (fun ps => (t, c) :: ps)

/-- The trains appended to one section's bucket, in input order (the
`grouped[cat].append(t)` of src/main.py line 170). -/
def groupBucket (pairs : List (Train × Str)) (c : Str) : List Train :=
  match pairs with
  | [] => []
  | (t, c2) :: rest =>
    if c2 = c then t :: groupBucket rest c else groupBucket rest c

/-- src/main.py `print_trains_grouped` (lines 166-175), observable
structure: the `grouped` dict holds the four sections in insertion order
Ночь, Утро, День, Вечер; sections with no members are skipped (`continue`)
and each emitted section lists its trains in input order.  The result is
the ordered list of (section, members) pairs actually printed, or `none`
when a departure time fails to parse and the run aborts. -/
def print_trains_grouped (trains : List Train) :
    Option (List (Str × List Train)) :=
  match categorizeTrains trains with
  | none => none
  | some pairs =>
    some ((([str "Ночь", str "Утро", str "День", str "Вечер"].map
      (fun c => (c, groupBucket pairs c))).filter (fun sec => !sec.2.isEmpty)))

/-- Python `key.replace("-", "_")` applied to a preset key
(src/main.py line 226). -/
def normKey (k : Str) : Str := replaceChar '-' '_' k

/-- One iteration of the preset-merge loop (src/main.py lines 225-228):
`arg_key = key.replace("-", "_"); if getattr(args, arg_key) is None:
setattr(args, arg_key, value)`. -/
def applyPresetItem {V : Type} (args : Str → Option V) (key : Str) (value : V) :
    Str → Option V :=
  match args (normKey key) with
  | none => fun k2 => if k2 = normKey key then some value else args k2
  | some _ => args

/-- The preset-merge loop of src/main.py lines 225-228: fold the preset's
(key, value) pairs in order over the argument record, setting a field only
when it is still `None`. -/
def merge_preset {V : Type} (args : Str → Option V) :
    List (Str × V) → (Str → Option V)
  | [] => args
  | kv :: rest => merge_preset (applyPresetItem args kv.1 kv.2) rest

/-- A train record fails the early type/selling filters of src/main.py
lines 59-62 (same guards, applied to the record's copied fields). -/
def trainRejected (filter_types : Option (List Str)) (filter_selling : Option Str)
    (t : Train) : Bool :=
  typeRejected filter_types t.train_type || sellingRejected filter_selling t.selling

/-- The full filter pipeline over already-extracted records: the
type/selling guards of src/main.py lines 59-62 (which the spec notes are
equivalent to filtering after extraction) followed by
`filter_by_price_range` (line 258). -/
def FilterPipeline_apply (trains : List Train) (filter_types : Option (List Str))
    (filter_selling : Option Str) (price_range : Option Str) : List Train :=
  filter_by_price_range (trains.filter (fun t => !trainRejected filter_types filter_selling t))
    price_range

/-- A row is missing a required sub-element: one of the four row-level
texts, or a ticket-class name or quantity element (the sub-elements read
through `select_one(...).text` in src/main.py lines 65-73). -/
def rowMissing (row : RowElem) : Bool :=
  row.dep_time_el.isNone || row.arr_time_el.isNone ||
  row.dep_station_el.isNone || row.arr_station_el.isNone ||
  row.ticket_items.any (fun te => te.name_el.isNone || te.qty_el.isNone)

/-- A fully populated row element of type `international`, used to
evaluate the model on concrete inputs. -/
def c1row : RowElem :=
  { train_type := some (str "international"), selling := some (str "true"),
    number := some (str "100"), dep_time_el := some (str "07:10"),
    arr_time_el := some (str "09:00"), dep_station_el := some (str "Минск"),
    arr_station_el := some (str "Брест"), ticket_items := [] }

/-- A row with train number 100 whose departure-time sub-element is
missing. -/
def c3rowA : RowElem :=
  { train_type := some (str "international"), selling := some (str "true"),
    number := some (str "100"), dep_time_el := none,
    arr_time_el := some (str "09:00"), dep_station_el := some (str "Минск"),
    arr_station_el := some (str "Брест"), ticket_items := [] }

/-- A row with train number 200 whose arrival-time sub-element is
missing (a different missing field and train number than `c3rowA`). -/
def c3rowB : RowElem :=
  { train_type := some (str "regional_economy"), selling := some (str "false"),
    number := some (str "200"), dep_time_el := some (str "12:30"),
    arr_time_el := none, dep_station_el := some (str "Минск"),
    arr_station_el := some (str "Гомель"), ticket_items := [] }

/-- A ticket-class sub-element whose single `.ticket-cost` element has
whitespace-only text and which has no currency elements. -/
def c8te : TicketElem :=
  { name_el := some (str "Сидячий"), qty_el := some (str "5"),
    cost_texts := [str " "], currency_texts := [] }

/-- A fully populated row whose only ticket-class sub-element is `c8te`. -/
def c8row : RowElem :=
  { train_type := some (str "regional_economy"), selling := some (str "true"),
    number := some (str "300"), dep_time_el := some (str "10:00"),
    arr_time_el := some (str "11:00"), dep_station_el := some (str "Минск"),
    arr_station_el := some (str "Орша"), ticket_items := [c8te] }

/-- A concrete extracted train record with one ticket priced 15. -/
def wTrain15 : Train :=
  { number := some (str "741Б"), train_type := some (str "interregional_economy"),
    selling := some (str "true"), dep_time := str "07:10", arr_time := str "09:00",
    departure := str "07:10 Минск", arrival := str "09:00 Брест",
    tickets := [{ type := str "Сидячий", seats := str "5",
                  price := str "15,00 BYN", min_price := some (mkRat 15 1) }] }

/-- A concrete extracted train record departing 23:40 with no parsed
price. -/
def wTrainEvening : Train :=
  { number := some (str "879А"), train_type := some (str "international"),
    selling := some (str "false"), dep_time := str "23:40", arr_time := str "06:10",
    departure := str "23:40 Минск", arrival := str "06:10 Вильнюс",
    tickets := [{ type := str "Купе", seats := str "2",
                  price := str "—", min_price := none }] }

/-- A caller argument record that explicitly sets only the `date` field. -/
def wArgs : Str → Option ℕ := fun k => if k = str "date" then some 7 else none

/-- The record the extractor builds from `c1row`. -/
def c1train : Train :=
  { number := some (str "100"), train_type := some (str "international"),
    selling := some (str "true"), dep_time := str "07:10", arr_time := str "09:00",
    departure := str "07:10 Минск", arrival := str "09:00 Брест", tickets := [] }

/-- A ticket-class sub-element with no price and no currency tokens. -/
def c8teW : TicketElem :=
  { name_el := some (str "Купе"), qty_el := some (str "2"),
    cost_texts := [], currency_texts := [] }

/-- The offer the extractor builds from `c8teW`. -/
def c8offW : TicketOffer :=
  { type := str "Купе", seats := str "2", price := str "—", min_price := none }

/-- A membership characterization of the cheap bracket: only a present
price strictly below 10 matches. -/
theorem in_range_cheap_iff (mp : Option ℚ) :
    in_range (str "cheap") mp = true ↔ ∃ p : ℚ, mp = some p ∧ p < 10 := by
  cases mp with
  | none => simp [in_range]
  | some p =>
    simp only [in_range]
    simp

/-- A membership characterization of the normal bracket: only a present
price between 10 and 20 inclusive matches. -/
theorem in_range_normal_iff (mp : Option ℚ) :
    in_range (str "normal") mp = true ↔ ∃ p : ℚ, mp = some p ∧ 10 ≤ p ∧ p ≤ 20 := by
  cases mp with
  | none => simp [in_range]
  | some p =>
    simp only [in_range]
    rw [if_neg (by decide)]
    simp [and_assoc]

/-- A membership characterization of the expensive bracket: only a present
price strictly above 20 matches. -/
theorem in_range_expensive_iff (mp : Option ℚ) :
    in_range (str "expensive") mp = true ↔ ∃ p : ℚ, mp = some p ∧ 20 < p := by
  cases mp with
  | none => simp [in_range]
  | some p =>
    simp only [in_range]
    rw [if_neg (by decide), if_neg (by decide)]
    simp

/-- C4: the price normalizer replaces the decimal comma by a decimal
point before numeric conversion and returns `none` (never an exception)
on conversion failure; `normalize "15,50" = 15.5` (the rational
`mkRat 31 2`), `normalize "—" = none`, `normalize "" = none`.  Returning
an `Option` value is the model of "never raises to the caller": every
failure is the value `none`. -/
theorem C4_parse_price_value :
    (∀ s : Str, parse_price_value s = py_float (replaceChar ',' '.' s)) ∧
    parse_price_value (str "15,50") = some (mkRat 31 2) ∧
    (mkRat 31 2 : ℚ) = 31 / 2 ∧
    parse_price_value (str "—") = none ∧
    parse_price_value (str "") = none :=
  ⟨fun _ => rfl, by decide, by rw [Rat.mkRat_eq_div]; norm_num, by decide, by decide⟩

/-- C1 counterexample: with `filter_types` the empty set (and no selling
filter), a row of type `international` still passes the type filter — the
extractor returns one record, not zero.  The claim that an empty set
matches nothing is false on the code: `if filter_types and ...` treats the
empty (falsy) set exactly like `None`. -/
theorem C1_counterexample :
    (parse_trains [c1row] (some []) none).map List.length = .ok 1 := by decide

/-- C1 amended: when `criteria.train_types` is the empty set the type
filter is disabled exactly as with `None` — extraction returns the same
records for the empty-set filter as for no filter at all, for every
document and selling filter (the empty set is NOT treated distinctly from
`None`). -/
theorem C1_empty_types_same_as_none :
    ∀ (doc : List RowElem) (fs : Option Str),
      parse_trains doc (some []) fs = parse_trains doc none fs := by
  intro doc fs
  induction doc with
  | nil => rfl
  | cons row rest ih =>
    simp only [parse_trains]
    have hr : rowRejected (some []) fs row = rowRejected none fs row := rfl
    rw [hr, ih]

/-- C7: with all criteria fields `None` (no type filter, no selling
filter, no price bracket) the filter pipeline returns the input sequence
of extracted records unchanged. -/
theorem C7_pipeline_identity :
    ∀ trains : List Train, FilterPipeline_apply trains none none none = trains := by
  intro trains
  show (trains.filter fun t => !trainRejected none none t) = trains
  induction trains with
  | nil => rfl
  | cons t ts ih =>
    rw [List.filter_cons]
    have hc : (!trainRejected none none t) = true := rfl
    rw [hc, if_pos rfl, ih]

/-- C2: for a non-`None` price bracket (one of cheap/normal/expensive), a
record is kept by `filter_by_price_range` iff it was in the input and at
least one of its tickets has a present `min_price` in the bracket's range,
with boundaries cheap `< 10`, normal `10 ≤ p ≤ 20` inclusive, expensive
`> 20`; a record all of whose tickets have absent `min_price` can satisfy
no disjunct, hence never passes. -/
theorem C2_price_bracket_membership :
    ∀ (trains : List Train) (pr : Str),
      pr = str "cheap" ∨ pr = str "normal" ∨ pr = str "expensive" →
      ∀ t : Train,
        t ∈ filter_by_price_range trains (some pr) ↔
          t ∈ trains ∧ ∃ tk ∈ t.tickets, ∃ p : ℚ, tk.min_price = some p ∧
            ((pr = str "cheap" ∧ p < 10) ∨
             (pr = str "normal" ∧ 10 ≤ p ∧ p ≤ 20) ∨
             (pr = str "expensive" ∧ 20 < p)) := by
  intro trains pr hpr t
  have hne : pr.isEmpty = false := by rcases hpr with h | h | h <;> subst h <;> decide
  simp only [filter_by_price_range, hne, Bool.false_eq_true, if_false]
  rw [List.mem_filter, List.any_eq_true]
  rcases hpr with h | h | h <;> subst h
  · refine and_congr_right fun _ => exists_congr fun tk => and_congr_right fun _ => ?_
    rw [in_range_cheap_iff]
    refine exists_congr fun p => and_congr_right fun _ => ?_
    constructor
    · intro hlt; exact Or.inl ⟨rfl, hlt⟩
    · rintro (⟨_, hlt⟩ | ⟨hc, _⟩ | ⟨hc, _⟩)
      · exact hlt
      · exact absurd hc (by decide)
      · exact absurd hc (by decide)
  · refine and_congr_right fun _ => exists_congr fun tk => and_congr_right fun _ => ?_
    rw [in_range_normal_iff]
    refine exists_congr fun p => and_congr_right fun _ => ?_
    constructor
    · intro hin; exact Or.inr (Or.inl ⟨rfl, hin⟩)
    · rintro (⟨hc, _⟩ | ⟨_, hin⟩ | ⟨hc, _⟩)
      · exact absurd hc (by decide)
      · exact hin
      · exact absurd hc (by decide)
  · refine and_congr_right fun _ => exists_congr fun tk => and_congr_right fun _ => ?_
    rw [in_range_expensive_iff]
    refine exists_congr fun p => and_congr_right fun _ => ?_
    constructor
    · intro hgt; exact Or.inr (Or.inr ⟨rfl, hgt⟩)
    · rintro (⟨hc, _⟩ | ⟨hc, _⟩ | ⟨_, hgt⟩)
      · exact absurd hc (by decide)
      · exact absurd hc (by decide)
      · exact hgt

/-- C2 witness: evaluating the bracket filter on a concrete pair of
records — the 15-rouble train passes the `normal` bracket. -/
theorem C2_witness :
    wTrain15 ∈ filter_by_price_range [wTrain15, wTrainEvening] (some (str "normal")) :=
  (C2_price_bracket_membership [wTrain15, wTrainEvening] (str "normal")
      (Or.inr (Or.inl rfl)) wTrain15).mpr
    ⟨by decide,
     ⟨{ type := str "Сидячий", seats := str "5", price := str "15,00 BYN",
        min_price := some (mkRat 15 1) }, by decide, 15, by decide,
      Or.inr (Or.inl ⟨rfl, by decide, by decide⟩)⟩⟩

/-- A successfully parsed `HH:MM` time has hour below 24 and minute below
60 (the parser's own validity check). -/
theorem parseHHMM_bounds {s : Str} {h m : ℕ} (hp : parseHHMM s = some (h, m)) :
    h < 24 ∧ m < 60 := by
  simp only [parseHHMM] at hp
  split at hp
  · split at hp
    · split at hp
      · rename_i hcond
        injection hp with hpair
        injection hpair with h1 h2
        subst h1; subst h2
        simpa [Bool.and_eq_true, decide_eq_true_eq] using hcond
      · exact absurd hp (by simp)
    · exact absurd hp (by simp)
  · exact absurd hp (by simp)

/-- C5: on every departure time parseable as `HH:MM`, the categorizer
returns exactly one of the four segments, determined by the hour: Night
(Ночь) for hour in [0,6), Morning (Утро) for [6,12), Day (День) for
[12,18), Evening (Вечер) for [18,24); in particular "00:00" and "05:59"
are Night, "06:00" is Morning, "17:59" is Day and "23:59" is Evening. -/
theorem C5_time_to_category :
    time_to_category (str "00:00") = some (str "Ночь") ∧
    time_to_category (str "05:59") = some (str "Ночь") ∧
    time_to_category (str "06:00") = some (str "Утро") ∧
    time_to_category (str "17:59") = some (str "День") ∧
    time_to_category (str "23:59") = some (str "Вечер") ∧
    ∀ (s : Str) (h m : ℕ), parseHHMM s = some (h, m) →
      ((time_to_category s = some (str "Ночь") ↔ h < 6) ∧
       (time_to_category s = some (str "Утро") ↔ 6 ≤ h ∧ h < 12) ∧
       (time_to_category s = some (str "День") ↔ 12 ≤ h ∧ h < 18) ∧
       (time_to_category s = some (str "Вечер") ↔ 18 ≤ h ∧ h < 24)) := by
  refine ⟨by decide, by decide, by decide, by decide, by decide, ?_⟩
  intro s h m hp
  have hb := parseHHMM_bounds hp
  simp only [time_to_category, hp]
  rcases Nat.lt_or_ge h 6 with h6 | h6
  · rw [if_pos h6]
    exact ⟨iff_of_true rfl h6,
           iff_of_false (by decide) (by omega),
           iff_of_false (by decide) (by omega),
           iff_of_false (by decide) (by omega)⟩
  · rcases Nat.lt_or_ge h 12 with h12 | h12
    · rw [if_neg (by omega), if_pos h12]
      exact ⟨iff_of_false (by decide) (by omega),
             iff_of_true rfl ⟨h6, h12⟩,
             iff_of_false (by decide) (by omega),
             iff_of_false (by decide) (by omega)⟩
    · rcases Nat.lt_or_ge h 18 with h18 | h18
      · rw [if_neg (by omega), if_neg (by omega), if_pos h18]
        exact ⟨iff_of_false (by decide) (by omega),
               iff_of_false (by decide) (by omega),
               iff_of_true rfl ⟨h12, h18⟩,
               iff_of_false (by decide) (by omega)⟩
      · rw [if_neg (by omega), if_neg (by omega), if_neg (by omega)]
        exact ⟨iff_of_false (by decide) (by omega),
               iff_of_false (by decide) (by omega),
               iff_of_false (by decide) (by omega),
               iff_of_true rfl ⟨h18, hb.1⟩⟩

/-- C5 witness: the general hour characterization applied at the concrete
time 13:45, which falls in the Day segment. -/
theorem C5_witness : time_to_category (str "13:45") = some (str "День") :=
  ((C5_time_to_category.2.2.2.2.2 (str "13:45") 13 45 (by decide)).2.2.1).mpr
    ⟨by omega, by omega⟩

/-- Setting one preset item never changes a field that already holds a
value. -/
theorem applyPresetItem_keeps {V : Type} (args : Str → Option V) (k1 : Str)
    (v1 : V) (k : Str) (v : V) (hk : args k = some v) :
    applyPresetItem args k1 v1 k = some v := by
  unfold applyPresetItem
  cases harg : args (normKey k1) with
  | none =>
    by_cases hke : k = normKey k1
    · rw [hke] at hk; rw [harg] at hk; exact absurd hk (by simp)
    · simpa [hke] using hk
  | some w => exact hk

/-- Setting one preset item leaves every other key unchanged. -/
theorem applyPresetItem_other {V : Type} (args : Str → Option V) (k1 : Str)
    (v1 : V) (k : Str) (hne : ¬(k = normKey k1)) :
    applyPresetItem args k1 v1 k = args k := by
  unfold applyPresetItem
  cases harg : args (normKey k1) with
  | none => simp [hne]
  | some w => rfl

/-- Setting a preset item on a still-unset field stores the preset's
value at the normalized key. -/
theorem applyPresetItem_hit {V : Type} (args : Str → Option V) (k1 : Str)
    (v1 : V) (h : args (normKey k1) = none) :
    applyPresetItem args k1 v1 (normKey k1) = some v1 := by
  unfold applyPresetItem
  rw [h]
  simp

/-- A field already set in the argument record survives the whole preset
merge unchanged. -/
theorem merge_preset_keeps {V : Type} (preset : List (Str × V)) :
    ∀ (args : Str → Option V) (k : Str) (v : V), args k = some v →
      merge_preset args preset k = some v := by
  induction preset with
  | nil => intro args k v hk; exact hk
  | cons kv rest ih =>
    intro args k v hk
    show merge_preset (applyPresetItem args kv.1 kv.2) rest k = some v
    exact ih _ _ _ (applyPresetItem_keeps args kv.1 kv.2 k v hk)

/-- A key not named (after dash normalization) by any preset entry is
left exactly as the caller supplied it. -/
theorem merge_preset_untouched {V : Type} (preset : List (Str × V)) :
    ∀ (args : Str → Option V) (k : Str), (∀ kv ∈ preset, normKey kv.1 ≠ k) →
      merge_preset args preset k = args k := by
  induction preset with
  | nil => intro args k _; rfl
  | cons kv rest ih =>
    intro args k hall
    show merge_preset (applyPresetItem args kv.1 kv.2) rest k = args k
    rw [ih _ _ (fun kv2 h2 => hall kv2 (List.mem_cons_of_mem _ h2))]
    exact applyPresetItem_other args kv.1 kv.2 k
      (fun he => hall kv (List.mem_cons_self _ _) he.symm)

/-- A field the caller left unset adopts the value of the preset entry
that names it (keys distinct after normalization). -/
theorem merge_preset_adopts {V : Type} (preset : List (Str × V)) :
    ∀ (args : Str → Option V) (k0 : Str) (v : V),
      preset.Pairwise (fun a b => normKey a.1 ≠ normKey b.1) →
      (k0, v) ∈ preset → args (normKey k0) = none →
      merge_preset args preset (normKey k0) = some v := by
  induction preset with
  | nil => intro _ _ _ _ hmem _; cases hmem
  | cons kv rest ih =>
    intro args k0 v hpw hmem hnone
    rcases List.mem_cons.mp hmem with heq | hmem2
    · subst heq
      show merge_preset (applyPresetItem args k0 v) rest (normKey k0) = some v
      exact merge_preset_keeps rest _ _ _ (applyPresetItem_hit args k0 v hnone)
    · have hne : normKey kv.1 ≠ normKey k0 :=
        (List.pairwise_cons.mp hpw).1 (k0, v) hmem2
      show merge_preset (applyPresetItem args kv.1 kv.2) rest (normKey k0) = some v
      apply ih _ _ _ (List.pairwise_cons.mp hpw).2 hmem2
      rw [applyPresetItem_other args kv.1 kv.2 (normKey k0) (fun he => hne he.symm)]
      exact hnone

/-- C6: the preset merge is a per-field override.  For every argument
record and preset whose normalized keys are distinct: (1) a field the
caller explicitly set keeps the caller's value; (2) a field the caller
left unset (`None`) adopts the value of the preset entry naming it;
(3) a field no preset entry names is left exactly as the caller supplied
it. -/
theorem C6_preset_merge :
    ∀ (V : Type) (args : Str → Option V) (preset : List (Str × V)),
      preset.Pairwise (fun a b => normKey a.1 ≠ normKey b.1) →
      ((∀ (k : Str) (v : V), args k = some v → merge_preset args preset k = some v) ∧
       (∀ (k0 : Str) (v : V), (k0, v) ∈ preset → args (normKey k0) = none →
          merge_preset args preset (normKey k0) = some v) ∧
       (∀ k : Str, (∀ kv ∈ preset, normKey kv.1 ≠ k) →
          merge_preset args preset k = args k)) := by
  intro V args preset hpw
  exact ⟨fun k v hk => merge_preset_keeps preset args k v hk,
         fun k0 v hmem hnone => merge_preset_adopts preset args k0 v hpw hmem hnone,
         fun k hall => merge_preset_untouched preset args k hall⟩

/-- C6 witness: merging a preset that supplies `train-types` into
arguments that supply only `date`: the caller's `date` survives and the
preset's `train-types` is adopted under the normalized key. -/
theorem C6_witness :
    merge_preset wArgs [(str "train-types", 3)] (str "date") = some 7 ∧
    merge_preset wArgs [(str "train-types", 3)] (str "train_types") = some 3 := by
  have H := C6_preset_merge ℕ wArgs [(str "train-types", 3)] (by simp)
  exact ⟨H.1 (str "date") 7 (by decide), H.2.1 (str "train-types") 3 (by simp) (by decide)⟩

/-- The extractor copies the row's attributes verbatim into the record it
builds: number, type and selling flag of a successfully parsed row are the
row's own. -/
theorem parseRow_ok_fields {row : RowElem} {t : Train} (h : parseRow row = .ok t) :
    t.number = row.number ∧ t.train_type = row.train_type ∧ t.selling = row.selling := by
  unfold parseRow at h
  split at h
  · exact absurd h (by simp)
  · split at h
    · exact absurd h (by simp)
    · split at h
      · exact absurd h (by simp)
      · split at h
        · exact absurd h (by simp)
        · split at h
          · exact absurd h (by simp)
          · injection h with h2
            subst h2
            exact ⟨rfl, rfl, rfl⟩

/-- C10: whenever extraction is run with a nonempty type-filter set and a
selling filter and succeeds, every returned record's `train_type` is a
member of the set and its selling flag is exactly the filter string (the
early-reject guards are a post-condition of the result). -/
theorem C10_early_filters_postcondition :
    ∀ (doc : List RowElem) (l : List Str) (sel : Str) (trains : List Train),
      l ≠ [] →
      parse_trains doc (some l) (some sel) = .ok trains →
      ∀ t ∈ trains, (∃ ty, t.train_type = some ty ∧ ty ∈ l) ∧ t.selling = some sel := by
  intro doc l sel
  induction doc with
  | nil =>
    intro trains _ h t ht
    simp only [parse_trains] at h
    injection h with h2
    subst h2
    cases ht
  | cons row rest ih =>
    intro trains hl h t ht
    simp only [parse_trains] at h
    split at h
    · exact ih trains hl h t ht
    · rename_i hrej
      split at h
      · exact absurd h (by simp)
      · rename_i t0 hrow
        split at h
        · exact absurd h (by simp)
        · rename_i ts hrest
          injection h with h2
          subst h2
          rcases List.mem_cons.mp ht with rfl | hmem
          · have hf := parseRow_ok_fields hrow
            have hrej2 : rowRejected (some l) (some sel) row = false := by
              simpa using hrej
            unfold rowRejected at hrej2
            rw [Bool.or_eq_false_iff] at hrej2
            obtain ⟨hty, hsell⟩ := hrej2
            have hle : l.isEmpty = false := by
              cases l with
              | nil => exact absurd rfl hl
              | cons a as => rfl
            simp only [typeRejected] at hty
            rw [hle] at hty
            simp only [Bool.not_false, Bool.true_and, Bool.not_eq_false,
              decide_eq_true_eq] at hty
            cases hty2 : row.train_type with
            | none => rw [hty2] at hty; exact absurd hty (by simp [optMem])
            | some ty =>
              rw [hty2] at hty
              simp only [optMem] at hty
              have hty3 : ty ∈ l := by simpa using hty
              simp only [sellingRejected] at hsell
              simp only [decide_eq_false_iff_not, ne_eq, not_not] at hsell
              refine ⟨⟨ty, ?_, hty3⟩, ?_⟩
              · rw [hf.2.1, hty2]
              · rw [hf.2.2, hsell]
          · exact ih ts hl hrest t hmem

/-- C10 witness: a document of one `international`/selling-`true` row run
with the filters `{international}` and `"true"`; the returned record
satisfies both post-conditions. -/
theorem C10_witness :
    (∃ ty, c1train.train_type = some ty ∧ ty ∈ [str "international"]) ∧
    c1train.selling = some (str "true") :=
  C10_early_filters_postcondition [c1row] [str "international"] (str "true")
    [c1train] (by decide) (by decide) c1train (by decide)

/-- `getText` fails only with the constant `AttributeError` value. -/
theorem getText_error {o : Option Str} {e : PyErr} (h : getText o = .error e) :
    e = attrErr := by
  cases o with
  | none =>
    simp only [getText] at h
    injection h with h2
    exact h2.symm
  | some s =>
    simp only [getText] at h
    exact absurd h (by simp)

/-- A successful `getText` means the element was present. -/
theorem getText_ok_isSome {o : Option Str} {s : Str} (h : getText o = .ok s) :
    o.isSome := by
  cases o with
  | none =>
    simp only [getText] at h
    exact absurd h (by simp)
  | some u => rfl

/-- An option known to be present is not `none`. -/
theorem isNone_false_of_isSome {α : Type} {o : Option α} (h : o.isSome) :
    o.isNone = false := by
  cases o with
  | none => exact absurd h (by simp)
  | some a => rfl

/-- `parseTicket` fails only with the constant `AttributeError` value. -/
theorem parseTicket_error {te : TicketElem} {e : PyErr}
    (h : parseTicket te = .error e) : e = attrErr := by
  unfold parseTicket at h
  split at h
  · rename_i e1 hname
    injection h with h2
    exact h2 ▸ getText_error hname
  · split at h
    · rename_i e1 hqty
      injection h with h2
      exact h2 ▸ getText_error hqty
    · simp at h

/-- `parseTickets` fails only with the constant `AttributeError` value. -/
theorem parseTickets_error : ∀ {l : List TicketElem} {e : PyErr},
    parseTickets l = .error e → e = attrErr := by
  intro l
  induction l with
  | nil => intro e h; simp [parseTickets] at h
  | cons te rest ih =>
    intro e h
    simp only [parseTickets] at h
    split at h
    · rename_i e1 hte
      injection h with h2
      exact h2 ▸ parseTicket_error hte
    · split at h
      · rename_i e1 hrest
        injection h with h2
        exact h2 ▸ ih hrest
      · exact absurd h (by simp)

/-- `parseRow` fails only with the constant `AttributeError` value. -/
theorem parseRow_error {row : RowElem} {e : PyErr}
    (h : parseRow row = .error e) : e = attrErr := by
  unfold parseRow at h
  split at h
  · rename_i e1 h1
    injection h with h2
    exact h2 ▸ getText_error h1
  · split at h
    · rename_i e1 h1
      injection h with h2
      exact h2 ▸ getText_error h1
    · split at h
      · rename_i e1 h1
        injection h with h2
        exact h2 ▸ getText_error h1
      · split at h
        · rename_i e1 h1
          injection h with h2
          exact h2 ▸ getText_error h1
        · split at h
          · rename_i e1 h1
            injection h with h2
            exact h2 ▸ parseTickets_error h1
          · exact absurd h (by simp)

/-- A successfully parsed ticket element had its name and quantity
sub-elements present. -/
theorem parseTicket_ok_elems {te : TicketElem} {off : TicketOffer}
    (h : parseTicket te = .ok off) : te.name_el.isSome ∧ te.qty_el.isSome := by
  unfold parseTicket at h
  split at h
  · exact absurd h (by simp)
  · rename_i nameRaw hname
    split at h
    · exact absurd h (by simp)
    · rename_i qty hqty
      exact ⟨getText_ok_isSome hname, getText_ok_isSome hqty⟩

/-- A successfully parsed ticket list had every name and quantity
sub-element present. -/
theorem parseTickets_ok_elems : ∀ {l : List TicketElem} {offs : List TicketOffer},
    parseTickets l = .ok offs → ∀ te ∈ l, te.name_el.isSome ∧ te.qty_el.isSome := by
  intro l
  induction l with
  | nil => intro offs _ te hte; cases hte
  | cons t0 rest ih =>
    intro offs h te hte
    simp only [parseTickets] at h
    split at h
    · exact absurd h (by simp)
    · rename_i off0 h0
      split at h
      · exact absurd h (by simp)
      · rename_i offs0 hrest
        rcases List.mem_cons.mp hte with rfl | hmem
        · exact parseTicket_ok_elems h0
        · exact ih hrest te hmem

/-- A row that parses successfully is missing no required sub-element. -/
theorem parseRow_ok_not_missing {row : RowElem} {t : Train}
    (h : parseRow row = .ok t) : rowMissing row = false := by
  unfold parseRow at h
  split at h
  · exact absurd h (by simp)
  · rename_i dep hdep
    split at h
    · exact absurd h (by simp)
    · rename_i arr harr
      split at h
      · exact absurd h (by simp)
      · rename_i deps hdeps
        split at h
        · exact absurd h (by simp)
        · rename_i arrs harrs
          split at h
          · exact absurd h (by simp)
          · rename_i tks htks
            unfold rowMissing
            rw [Bool.or_eq_false_iff, Bool.or_eq_false_iff, Bool.or_eq_false_iff,
              Bool.or_eq_false_iff]
            refine ⟨⟨⟨⟨isNone_false_of_isSome (getText_ok_isSome hdep),
              isNone_false_of_isSome (getText_ok_isSome harr)⟩,
              isNone_false_of_isSome (getText_ok_isSome hdeps)⟩,
              isNone_false_of_isSome (getText_ok_isSome harrs)⟩, ?_⟩
            rw [List.any_eq_false]
            intro te hte
            obtain ⟨hA, hB⟩ := parseTickets_ok_elems htks te hte
            simp [isNone_false_of_isSome hA, isNone_false_of_isSome hB]

/-- C3 counterexample: two one-row documents whose rows miss different
required sub-elements (`c3rowA` has no departure-time element, `c3rowB`
no arrival-time element) and carry different train numbers, yet extraction
aborts both runs with the identical constant `AttributeError` raised by
reading `.text` on `None`; the message contains no digit at all, so it
can name neither the missing field nor any train number.  This refutes
the claim that the failure is an `ExtractionError` naming the missing
field and the row's train number. -/
theorem C3_counterexample :
    parse_trains [c3rowA] none none = .error (.attributeError noneTextMsg) ∧
    parse_trains [c3rowB] none none = .error (.attributeError noneTextMsg) ∧
    c3rowA.number = some (str "100") ∧ c3rowB.number = some (str "200") ∧
    noneTextMsg.all (fun c => !c.isDigit) = true :=
  ⟨by decide, by decide, by decide, by decide, by decide⟩

/-- C3 amended: if any row that passes the early type/selling filters is
missing a required sub-element (departure/arrival time or station text, or
a ticket name/quantity element), the whole extraction aborts with the
raised `AttributeError` — fail-fast with no partial result — but the
error is the constant `'NoneType' object has no attribute 'text'`, which
names neither the missing field nor the train number. -/
theorem C3_missing_required_aborts :
    ∀ (doc : List RowElem) (ft : Option (List Str)) (fs : Option Str),
      (∃ row ∈ doc, rowRejected ft fs row = false ∧ rowMissing row = true) →
      parse_trains doc ft fs = .error attrErr := by
  intro doc ft fs
  induction doc with
  | nil =>
    rintro ⟨row, hmem, _⟩
    cases hmem
  | cons row rest ih =>
    rintro ⟨r, hmem, hrej, hmiss⟩
    simp only [parse_trains]
    rcases List.mem_cons.mp hmem with rfl | hmem2
    · rw [if_neg (by rw [hrej]; simp)]
      cases hpr : parseRow r with
      | error e => rw [parseRow_error hpr]
      | ok t =>
        exact absurd (parseRow_ok_not_missing hpr) (by rw [hmiss]; simp)
    · by_cases hr : rowRejected ft fs row = true
      · rw [if_pos hr]
        exact ih ⟨r, hmem2, hrej, hmiss⟩
      · rw [if_neg hr]
        have hrest := ih ⟨r, hmem2, hrej, hmiss⟩
        cases hpr : parseRow row with
        | error e => rw [parseRow_error hpr]
        | ok t => rw [hrest]

/-- C3 witness: the amended theorem applied to the one-row document whose
row is missing its departure-time element and passes the (absent)
filters. -/
theorem C3_witness : parse_trains [c3rowA] none none = .error attrErr :=
  C3_missing_required_aborts [c3rowA] none none
    ⟨c3rowA, by decide, by decide, by decide⟩

/-- Joining a nonempty list of strings with `/` yields the empty string
only when the list is exactly one empty string. -/
theorem pyJoin_slash_nil : ∀ {l : List Str}, l ≠ [] →
    pyJoin (str "/") l = [] → l = [[]] := by
  intro l hne h
  cases l with
  | nil => exact absurd rfl hne
  | cons x xs =>
    cases xs with
    | nil =>
      simp only [pyJoin] at h
      rw [h]
    | cons y ys =>
      simp only [pyJoin] at h
      rw [List.append_eq_nil] at h
      obtain ⟨h1, _⟩ := h
      rw [List.append_eq_nil] at h1
      exact absurd h1.2 (by decide)

/-- C8 counterexample: a row whose only ticket-class sub-element has one
price element with whitespace-only text and no currency elements; the
extractor returns an offer whose `display_price` is the EMPTY string —
neither real price text nor the `—` placeholder — refuting the claimed
invariant. -/
theorem C8_counterexample :
    parse_trains [c8row] none none = .ok
      [{ number := some (str "300"), train_type := some (str "regional_economy"),
         selling := some (str "true"), dep_time := str "10:00",
         arr_time := str "11:00", departure := str "10:00 Минск",
         arrival := str "11:00 Орша",
         tickets := [{ type := str "Сидячий", seats := str "5",
                       price := [], min_price := none }] }] := by decide

/-- C8 amended: for every offer the extractor builds, `display_price` is
the placeholder `—` when there are no price tokens, and otherwise the `/`
join of the stripped raw price texts with the deduplicated lexically
sorted currency codes appended after a single space when present; it can
be the empty string, but only in the degenerate case where the price
tokens strip to exactly one empty text and there are no currency
tokens. -/
theorem C8_display_price_amended :
    ∀ (te : TicketElem) (off : TicketOffer), parseTicket te = .ok off →
      ((te.cost_texts = [] → off.price = str "—") ∧
       (te.cost_texts ≠ [] →
          off.price = pyJoin (str "/") (te.cost_texts.map pyStrip) ++
            (if (te.currency_texts.map pyStrip).isEmpty then []
             else str " " ++ pyJoin (str "/") (pySortedSet (te.currency_texts.map pyStrip)))) ∧
       (off.price = [] → te.cost_texts.map pyStrip = [[]] ∧ te.currency_texts = [])) := by
  intro te off h
  unfold parseTicket at h
  split at h
  · exact absurd h (by simp)
  · split at h
    · exact absurd h (by simp)
    · injection h with h2
      subst h2
      refine ⟨?_, ?_, ?_⟩
      · intro hct
        simp [hct]
      · intro hct
        have hmape : (te.cost_texts.map pyStrip).isEmpty = false := by
          cases hc : te.cost_texts with
          | nil => exact absurd hc hct
          | cons a as => simp [hc]
        by_cases hcur : (te.currency_texts.map pyStrip).isEmpty = true
        · simp [hmape, hcur]
        · simp [hmape, hcur]
      · intro hpz
        by_cases hct : te.cost_texts = []
        · simp [hct] at hpz
          exact absurd hpz (by decide)
        · have hmape : (te.cost_texts.map pyStrip).isEmpty = false := by
            cases hc : te.cost_texts with
            | nil => exact absurd hc hct
            | cons a as => simp [hc]
          simp only [hmape, Bool.false_eq_true, if_false] at hpz
          by_cases hcur : (te.currency_texts.map pyStrip).isEmpty = true
          · rw [if_pos hcur] at hpz
            have hmapne : te.cost_texts.map pyStrip ≠ [] := by
              simpa using hct
            refine ⟨pyJoin_slash_nil hmapne hpz, ?_⟩
            have hmc : te.currency_texts.map pyStrip = [] := by
              simpa using hcur
            simpa using hmc
          · rw [if_neg hcur] at hpz
            obtain ⟨h1, _⟩ := List.append_eq_nil.mp hpz
            obtain ⟨_, h2⟩ := List.append_eq_nil.mp h1
            exact absurd h2 (by decide)

/-- C8 witness: the amended display-price characterization applied to a
concrete ticket element with no price tokens — the offer shows the
placeholder. -/
theorem C8_witness : c8offW.price = str "—" :=
  (C8_display_price_amended c8teW c8offW (by decide)).1 rfl

/-- When every departure time parses, the categorization loop succeeds. -/
theorem categorizeTrains_some_of_total : ∀ {trains : List Train},
    (∀ t ∈ trains, (time_to_category t.dep_time).isSome) →
    ∃ pairs, categorizeTrains trains = some pairs := by
  intro trains
  induction trains with
  | nil => intro _; exact ⟨[], rfl⟩
  | cons t rest ih =>
    intro h
    have ht := h t (List.mem_cons_self _ _)
    cases hc : time_to_category t.dep_time with
    | none => rw [hc] at ht; exact absurd ht (by simp)
    | some c =>
      obtain ⟨ps, hps⟩ := ih (fun u hu => h u (List.mem_cons_of_mem _ hu))
      exact ⟨(t, c) :: ps, by simp [categorizeTrains, hc, hps]⟩

/-- The bucket a section collects is exactly the input-order sublist of
trains categorized into it. -/
theorem groupBucket_filter : ∀ {trains : List Train} {pairs : List (Train × Str)},
    categorizeTrains trains = some pairs →
    ∀ c, groupBucket pairs c =
      trains.filter (fun t => decide (time_to_category t.dep_time = some c)) := by
  intro trains
  induction trains with
  | nil =>
    intro pairs h c
    simp only [categorizeTrains] at h
    injection h with h2
    subst h2
    rfl
  | cons t rest ih =>
    intro pairs h c
    simp only [categorizeTrains] at h
    split at h
    · exact absurd h (by simp)
    · rename_i c0 hc0
      cases hrest : categorizeTrains rest with
      | none => rw [hrest] at h; exact absurd h (by simp)
      | some ps =>
        rw [hrest] at h
        simp only [Option.map] at h
        injection h with h2
        subst h2
        simp only [groupBucket, List.filter_cons]
        by_cases hcc : c0 = c
        · subst hcc
          rw [if_pos rfl]
          have hd : decide (time_to_category t.dep_time = some c0) = true := by
            simp [hc0]
          rw [hd, if_pos rfl, ih hrest c0]
        · rw [if_neg hcc]
          have hd : decide (time_to_category t.dep_time = some c) = false := by
            simp [hc0, hcc]
          rw [hd, if_neg (by simp), ih hrest c]

/-- C9: when every record's departure time parses, the renderer emits the
sections in the fixed order Ночь (Night), Утро (Morning), День (Day),
Вечер (Evening), omitting a section entirely when no record falls in it,
and each emitted section lists exactly the records categorized into it in
their input order (a stable filter of the input). -/
theorem C9_renderer_grouping :
    ∀ trains : List Train,
      (∀ t ∈ trains, (time_to_category t.dep_time).isSome) →
      print_trains_grouped trains =
        some (([str "Ночь", str "Утро", str "День", str "Вечер"].map
          (fun c => (c, trains.filter
            (fun t => decide (time_to_category t.dep_time = some c))))).filter
              (fun sec => !sec.2.isEmpty)) := by
  intro trains h
  obtain ⟨pairs, hp⟩ := categorizeTrains_some_of_total h
  unfold print_trains_grouped
  rw [hp]
  dsimp only
  have hfun : (fun c => ((c, groupBucket pairs c) : Str × List Train)) =
      (fun c => (c, trains.filter
        (fun t => decide (time_to_category t.dep_time = some c)))) :=
    funext fun c => by rw [groupBucket_filter hp c]
  rw [hfun]

/-- C9 witness: rendering a concrete morning train and a concrete evening
train — two sections in the fixed order, Night and Day omitted, each
section holding its own record. -/
theorem C9_witness :
    print_trains_grouped [wTrain15, wTrainEvening] =
      some [(str "Утро", [wTrain15]), (str "Вечер", [wTrainEvening])] := by
  have H := C9_renderer_grouping [wTrain15, wTrainEvening] (by decide)
  rw [H]
  decide
